import Mathlib

/-!
Shallow embedding of the CSI repository's Azure DevOps simulation classes.

The embedding covers:
* `AzureDevOpsSimulator` from `src/Assignment7.py` (users, groups, branches,
  pull requests, work items, pipelines, and every mutating public method);
* `ReleaseApprovalManager` from `src/Assignment8.py` (environments, approval
  requests, `request_approval`, `process_approval`);
* `PipelineVariableManager` from `src/Assignment8.py` (`add_variable`,
  `get_variable`).

Python dictionaries are embedded as association lists over `String` keys
(`Map`), with insertion overwriting the first matching key in place and new
keys appended at the end, exactly mirroring `dict` update semantics for the
operations the code uses (membership, lookup, item assignment).  Python sets
(`PullRequest.approvals`, `Group.members`, `User.roles`) are embedded as
`Finset`.  Wall-clock timestamp fields (`created_date`, `completed_date`,
`last_run`, `requested_date`, `response_date`) are omitted: the code only
stores `datetime.now()` into them and no claim depends on them.  `print`
calls are omitted; identifiers that Python draws from `uuid.uuid4()` or an
md5 digest enter the embedding as explicit parameters (they are external
nondeterminism).
-/

namespace CSI

/-- Association-list embedding of a Python `dict` with string keys. -/
abbrev Map (V : Type) : Type := List (String × V)

/-- Lookup, returning the first binding of the key (the unique one, since
`mapInsert` overwrites in place). -/
def mapLookup {V : Type} (k : String) : Map V → Option V
  | [] => none
  | (k', v) :: rest => if k' = k then some v else mapLookup k rest

/-- Python `d[k] = v`: overwrite the existing binding in place, else append. -/
def mapInsert {V : Type} (k : String) (v : V) : Map V → Map V
  | [] => [(k, v)]
  | (k', v') :: rest =>
      if k' = k then (k, v) :: rest else (k', v') :: mapInsert k v rest

/-- Python in-place mutation of `d[k]` (e.g. `d[k].field = x`): apply `f`
to the value bound to `k`, if any. -/
def mapModify {V : Type} (k : String) (f : V → V) : Map V → Map V
  | [] => []
  | (k', v) :: rest =>
      if k' = k then (k', f v) :: rest else (k', v) :: mapModify k f rest

/-- Python `k in d`. -/
def mapMem {V : Type} (k : String) (m : Map V) : Bool :=
  (mapLookup k m).isSome

/-- UserRole enum from Assignment7. -/
inductive UserRole where
  | PROJECT_ADMIN
  | CONTRIBUTOR
  | READER
  | BUILD_ADMIN
deriving DecidableEq

/-- BranchPermission enum from Assignment7. -/
inductive BranchPermission where
  | ALLOW
  | DENY
  | INHERIT
deriving DecidableEq

/-- PullRequestStatus enum from Assignment7. -/
inductive PullRequestStatus where
  | ACTIVE
  | COMPLETED
  | ABANDONED
deriving DecidableEq

/-- WorkItemType enum from Assignment7. -/
inductive WorkItemType where
  | USER_STORY
  | TASK
  | BUG
  | FEATURE
deriving DecidableEq

/-- PipelineStatus enum from Assignment7. -/
inductive PipelineStatus where
  | PENDING
  | RUNNING
  | SUCCEEDED
  | FAILED
  | CANCELED
deriving DecidableEq

/-- User dataclass from Assignment7 (roles is a Python `Set[UserRole]`). -/
structure User where
  username : String
  email : String
  display_name : String
  roles : Finset UserRole
  is_active : Bool := true
deriving DecidableEq

/-- Group dataclass from Assignment7 (`members` is a Python `Set[str]`). -/
structure Group where
  name : String
  description : String
  members : Finset String := ∅
  permissions : Map BranchPermission := []
deriving DecidableEq

/-- BranchPolicy dataclass from Assignment7. -/
structure BranchPolicy where
  require_pull_request : Bool := true
  require_code_review : Bool := true
  minimum_reviewers : Nat := 1
  require_build_validation : Bool := true
  require_up_to_date_branch : Bool := true
  auto_complete_enabled : Bool := false
  delete_source_branch : Bool := true
deriving DecidableEq

/-- BranchSecurity dataclass from Assignment7. -/
structure BranchSecurity where
  branch_name : String
  user_permissions : Map (Map BranchPermission) := []
  group_permissions : Map (Map BranchPermission) := []
  is_locked : Bool := false
  lock_reason : String := ""
  path_filters : List String := []
deriving DecidableEq

/-- Branch dataclass from Assignment7. -/
structure Branch where
  name : String
  is_default : Bool := false
  policy : Option BranchPolicy := none
  security : Option BranchSecurity := none
  commits : List String := []
deriving DecidableEq

/-- PullRequest dataclass from Assignment7 (`approvals` is a Python set,
`reviewers` a Python list). -/
structure PullRequest where
  id : String
  title : String
  source_branch : String
  target_branch : String
  author : String
  description : String := ""
  status : PullRequestStatus := PullRequestStatus.ACTIVE
  reviewers : List String := []
  approvals : Finset String := ∅
  work_items : List String := []
deriving DecidableEq

/-- WorkItem dataclass from Assignment7. -/
structure WorkItem where
  id : String
  title : String
  type : WorkItemType
  state : String
  assigned_to : String
  description : String := ""
  priority : Nat := 2
  tags : List String := []
deriving DecidableEq

/-- BuildTrigger dataclass from Assignment7. -/
structure BuildTrigger where
  branch_filters : List String := []
  path_filters : List String := []
  continuous_integration : Bool := true
  pull_request_trigger : Bool := true
  scheduled_triggers : List String := []
deriving DecidableEq

/-- Gate dataclass from Assignment7. -/
structure Gate where
  name : String
  condition : String
  timeout_minutes : Nat := 60
  is_enabled : Bool := true
  approval_required : Bool := false
  approvers : List String := []
deriving DecidableEq

/-- Pipeline dataclass from Assignment7. -/
structure Pipeline where
  id : String
  name : String
  yaml_content : String
  triggers : BuildTrigger := {}
  gates : List Gate := []
  status : PipelineStatus := PipelineStatus.PENDING
deriving DecidableEq

/-- The mutable fields of `AzureDevOpsSimulator` (`__init__`, Assignment7
lines 181-188), before `_initialize_default_data` runs. -/
structure SimState where
  users : Map User := []
  groups : Map Group := []
  branches : Map Branch := []
  pull_requests : Map PullRequest := []
  work_items : Map WorkItem := []
  pipelines : Map Pipeline := []
  current_user : Option String := none
deriving DecidableEq

/-- `create_user` (Assignment7 lines 234-239): unconditionally stores a new
`User` under its username and returns it. -/
def create_user (st : SimState) (username email display_name : String)
    (roles : Finset UserRole) : User × SimState :=
  let user : User := { username := username, email := email,
                       display_name := display_name, roles := roles }
  (user, { st with users := mapInsert username user st.users })

/-- `login` (lines 241-248): sets `current_user` when the username exists. -/
def login (st : SimState) (username : String) : Bool × SimState :=
  if mapMem username st.users then
    (true, { st with current_user := some username })
  else
    (false, st)

/-- `create_group` (lines 250-255). -/
def create_group (st : SimState) (name description : String) :
    Group × SimState :=
  let group : Group := { name := name, description := description }
  (group, { st with groups := mapInsert name group st.groups })

/-- `add_user_to_group` (lines 257-264): adds the username to the group's
member set when both the user and the group exist, else a no-op returning
`False`. -/
def add_user_to_group (st : SimState) (username group_name : String) :
    Bool × SimState :=
  if mapMem username st.users && mapMem group_name st.groups then
    (true, { st with
      groups :=
        mapModify group_name
        (fun g => { g with members := insert username g.members }) st.groups })
  else
    (false, st)

/-- `check_permission` (lines 266-270).  The Python code is called with
`self.current_user`, which may be `None`; `None not in self.users` is true,
so the `None` case returns `False`. -/
def check_permission (st : SimState) (username : Option String)
    (required_role : UserRole) : Bool :=
  match username with
  | none => false
  | some u =>
    match mapLookup u st.users with
    | none => false
    | some user => required_role ∈ user.roles

/-- `create_branch` (lines 276-281). -/
def create_branch (st : SimState) (name : String) (is_default : Bool) :
    Branch × SimState :=
  let branch : Branch := { name := name, is_default := is_default }
  (branch, { st with branches := mapInsert name branch st.branches })

/-- `apply_branch_policy` (lines 283-294). -/
def apply_branch_policy (st : SimState) (branch_name : String)
    (policy : BranchPolicy) : Bool × SimState :=
  if mapMem branch_name st.branches then
    (true, { st with
      branches :=
        mapModify branch_name (fun b => { b with policy := some policy })
        st.branches })
  else
    (false, st)

/-- The permission table given to `"admin"` on `"main"` by
`apply_branch_security` (lines 306-314). -/
def adminMainPerms : Map BranchPermission :=
  [("GenericRead", BranchPermission.ALLOW),
   ("GenericContribute", BranchPermission.ALLOW),
   ("ForcePush", BranchPermission.ALLOW),
   ("CreateBranch", BranchPermission.ALLOW),
   ("CreateTag", BranchPermission.ALLOW),
   ("ManageNote", BranchPermission.ALLOW),
   ("PolicyExempt", BranchPermission.ALLOW)]

/-- The permission table given to `"developer1"`/`"developer2"` on `"main"`
by `apply_branch_security` (lines 317-326). -/
def devMainPerms : Map BranchPermission :=
  [("GenericRead", BranchPermission.ALLOW),
   ("GenericContribute", BranchPermission.DENY),
   ("ForcePush", BranchPermission.DENY),
   ("CreateBranch", BranchPermission.ALLOW),
   ("CreateTag", BranchPermission.DENY),
   ("ManageNote", BranchPermission.DENY),
   ("PolicyExempt", BranchPermission.DENY)]

/-- Group permission table for `"Admins"` (lines 329-334). -/
def adminsGroupPerms : Map BranchPermission :=
  [("GenericRead", BranchPermission.ALLOW),
   ("GenericContribute", BranchPermission.ALLOW),
   ("ForcePush", BranchPermission.ALLOW),
   ("PolicyExempt", BranchPermission.ALLOW)]

/-- Group permission table for `"Developers"` (lines 336-341); `Contribute`
is denied exactly on `"main"`. -/
def developersGroupPerms (branch_name : String) : Map BranchPermission :=
  [("GenericRead", BranchPermission.ALLOW),
   ("GenericContribute",
     if branch_name = "main" then BranchPermission.DENY
     else BranchPermission.ALLOW),
   ("ForcePush", BranchPermission.DENY),
   ("PolicyExempt", BranchPermission.DENY)]

/-- `apply_branch_security` (lines 296-345): builds a fresh `BranchSecurity`
(with the hard-coded user tables when the branch is `"main"`) and stores it
on the branch. -/
def apply_branch_security (st : SimState) (branch_name : String) :
    Bool × SimState :=
  if mapMem branch_name st.branches then
    let user_perms : Map (Map BranchPermission) :=
      if branch_name = "main" then
        [("admin", adminMainPerms),
         ("developer1", devMainPerms),
         ("developer2", devMainPerms)]
      else []
    let security : BranchSecurity :=
      { branch_name := branch_name,
        user_permissions := user_perms,
        group_permissions :=
          [("Admins", adminsGroupPerms),
           ("Developers", developersGroupPerms branch_name)] }
    (true, { st with
      branches :=
        mapModify branch_name (fun b => { b with security := some security })
        st.branches })
  else
    (false, st)

/-- `lock_branch` (lines 347-359): requires the current user to be a project
administrator and the branch to exist with security applied. -/
def lock_branch (st : SimState) (branch_name reason : String) :
    Bool × SimState :=
  if !check_permission st st.current_user UserRole.PROJECT_ADMIN then
    (false, st)
  else
    match mapLookup branch_name st.branches with
    | some b =>
      match b.security with
      | some _ =>
        (true, { st with
          branches :=
            mapModify branch_name
            (fun b => { b with
              security := b.security.map (fun s =>
                { s with is_locked := true, lock_reason := reason }) })
            st.branches })
      | none => (false, st)
    | none => (false, st)

/-- `apply_branch_filters` (lines 361-368). -/
def apply_branch_filters (st : SimState) (branch_name : String)
    (path_filters : List String) : Bool × SimState :=
  match mapLookup branch_name st.branches with
  | some b =>
    match b.security with
    | some _ =>
      (true, { st with
        branches :=
          mapModify branch_name
          (fun b => { b with
            security :=
              b.security.map (fun s => { s with path_filters := path_filters }) })
          st.branches })
    | none => (false, st)
  | none => (false, st)

/-- `_can_create_pr_to_main` (lines 414-426): the guard
`if not self.current_user` is a Python truthiness test, refusing both
`None` and the empty username; otherwise the check defaults to `True`, and
only when `"main"` exists, carries security, and the current user has an
entry in its `user_permissions` is the `GenericRead` permission (default
`DENY`) tested. -/
def can_create_pr_to_main (st : SimState) : Bool :=
  match st.current_user with
  | none => false
  | some u =>
    if u = "" then false
    else
    match mapLookup "main" st.branches with
    | some b =>
      match b.security with
      | some security =>
        match mapLookup u security.user_permissions with
        | some perms =>
          (mapLookup "GenericRead" perms).getD BranchPermission.DENY
            = BranchPermission.ALLOW
        | none => true
      | none => true
    | none => true

/-- `create_pull_request` (lines 374-412).  `pr_id` stands for
`str(uuid.uuid4())[:8]`.  Returns `none` when `self.current_user` is falsy
(`None` or the empty username — a truthiness test) or when the target is
`"main"` and `_can_create_pr_to_main` fails; otherwise stores the
new pull request (reviewers `["admin"]` exactly when the target branch has a
policy with `require_code_review` and the target is `"main"`). -/
def create_pull_request (st : SimState) (pr_id title source_branch
    target_branch description : String) (work_items : List String) :
    Option PullRequest × SimState :=
  match st.current_user with
  | none => (none, st)
  | some u =>
    if u = "" then (none, st)
    else if target_branch = "main" && !can_create_pr_to_main st then
      (none, st)
    else
      let pr : PullRequest :=
        { id := pr_id, title := title, source_branch := source_branch,
          target_branch := target_branch, author := u,
          description := description, work_items := work_items }
      let pr :=
        match mapLookup target_branch st.branches with
        | some b =>
          match b.policy with
          | some policy =>
            if policy.require_code_review && target_branch = "main" then
              { pr with reviewers := ["admin"] }
            else pr
          | none => pr
        | none => pr
      (some pr, { st with pull_requests := mapInsert pr_id pr st.pull_requests })

/-- `approve_pull_request` (lines 428-449): when the current user is truthy
(not `None`, not the empty username), the pull request exists, and the
current user is one of its reviewers, add the user to the approval set. -/
def approve_pull_request (st : SimState) (pr_id : String) : Bool × SimState :=
  match st.current_user with
  | none => (false, st)
  | some u =>
    if u = "" then (false, st)
    else
    match mapLookup pr_id st.pull_requests with
    | none => (false, st)
    | some pr =>
      if u ∈ pr.reviewers then
        (true, { st with
          pull_requests :=
            mapModify pr_id
            (fun pr => { pr with approvals := insert u pr.approvals })
            st.pull_requests })
      else
        (false, st)

/-- `complete_pull_request` (lines 451-482): refuses when `self.current_user`
is falsy (`None` or the empty username — a truthiness test), the pull
request is unknown, the user is not a project admin while the target is
`"main"`, or fewer approvals than reviewers exist; otherwise marks the pull
request `COMPLETED` and appends a merge commit to the target branch when it
exists. -/
def complete_pull_request (st : SimState) (pr_id : String) : Bool × SimState :=
  match st.current_user with
  | none => (false, st)
  | some u =>
    if u = "" then (false, st)
    else
    match mapLookup pr_id st.pull_requests with
    | none => (false, st)
    | some pr =>
      if !check_permission st st.current_user UserRole.PROJECT_ADMIN
          && pr.target_branch = "main" then
        (false, st)
      else if pr.approvals.card < pr.reviewers.length then
        (false, st)
      else
        let st1 := { st with
          pull_requests :=
            mapModify pr_id
            (fun pr => { pr with status := PullRequestStatus.COMPLETED })
            st.pull_requests }
        let st2 :=
          if mapMem pr.target_branch st1.branches then
            { st1 with
              branches :=
                mapModify pr.target_branch
                (fun b => { b with commits :=
                  b.commits ++ ["Merged PR #" ++ pr_id ++ ": " ++ pr.title] })
                st1.branches }
          else st1
        (true, st2)

/-- `create_work_item` (lines 488-501); `item_id` stands for the uuid. -/
def create_work_item (st : SimState) (item_id title : String)
    (item_type : WorkItemType) (assigned_to : String) : WorkItem × SimState :=
  let work_item : WorkItem :=
    { id := item_id, title := title, type := item_type, state := "New",
      assigned_to := assigned_to }
  (work_item,
   { st with work_items := mapInsert item_id work_item st.work_items })

/-- `link_work_item_to_pr` (lines 503-510). -/
def link_work_item_to_pr (st : SimState) (work_item_id pr_id : String) :
    Bool × SimState :=
  if mapMem work_item_id st.work_items && mapMem pr_id st.pull_requests then
    (true, { st with
      pull_requests :=
        mapModify pr_id
        (fun pr => { pr with work_items := pr.work_items ++ [work_item_id] })
        st.pull_requests })
  else
    (false, st)

/-- `create_pipeline` (lines 516-527); `pipeline_id` stands for the uuid. -/
def create_pipeline (st : SimState) (pipeline_id name yaml_content : String) :
    Pipeline × SimState :=
  let pipeline : Pipeline :=
    { id := pipeline_id, name := name, yaml_content := yaml_content }
  (pipeline,
   { st with pipelines := mapInsert pipeline_id pipeline st.pipelines })

/-- `apply_build_triggers` (lines 529-540). -/
def apply_build_triggers (st : SimState) (pipeline_id : String)
    (triggers : BuildTrigger) : Bool × SimState :=
  if mapMem pipeline_id st.pipelines then
    (true, { st with
      pipelines :=
        mapModify pipeline_id (fun p => { p with triggers := triggers })
        st.pipelines })
  else
    (false, st)

/-- `add_pipeline_gate` (lines 542-552). -/
def add_pipeline_gate (st : SimState) (pipeline_id : String) (gate : Gate) :
    Bool × SimState :=
  if mapMem pipeline_id st.pipelines then
    (true, { st with
      pipelines :=
        mapModify pipeline_id (fun p => { p with gates := p.gates ++ [gate] })
        st.pipelines })
  else
    (false, st)

/-- `run_pipeline` (lines 554-576): unknown pipeline is a no-op returning
`False`; otherwise the status is set to `RUNNING` and then (the gate loop
only prints) to `SUCCEEDED`. -/
def run_pipeline (st : SimState) (pipeline_id : String) : Bool × SimState :=
  if mapMem pipeline_id st.pipelines then
    let st1 := { st with
      pipelines :=
        mapModify pipeline_id (fun p => { p with status := PipelineStatus.RUNNING })
        st.pipelines }
    let st2 := { st1 with
      pipelines :=
        mapModify pipeline_id
        (fun p => { p with status := PipelineStatus.SUCCEEDED })
        st1.pipelines }
    (true, st2)
  else
    (false, st)

/-- `_initialize_default_data` (lines 193-228), run by `__init__`.  The
three work-item uuids are parameters. -/
def initState (w1 w2 w3 : String) : SimState :=
  let st : SimState := {}
  let st := (create_user st "admin" "admin@company.com"
    "Project Administrator" {UserRole.PROJECT_ADMIN, UserRole.BUILD_ADMIN}).2
  let st := (create_user st "developer1" "dev1@company.com" "Developer One"
    {UserRole.CONTRIBUTOR}).2
  let st := (create_user st "developer2" "dev2@company.com" "Developer Two"
    {UserRole.CONTRIBUTOR}).2
  let st := (create_user st "reader" "reader@company.com" "Read Only User"
    {UserRole.READER}).2
  let st := (create_group st "Developers" "Development team members").2
  let st := (add_user_to_group st "developer1" "Developers").2
  let st := (add_user_to_group st "developer2" "Developers").2
  let st := (create_group st "Admins" "Project administrators").2
  let st := (add_user_to_group st "admin" "Admins").2
  let st := (create_branch st "main" true).2
  let st := (create_branch st "develop" false).2
  let st := (create_branch st "feature/user-auth" false).2
  let st := (apply_branch_policy st "main"
    { require_pull_request := true, require_code_review := true,
      minimum_reviewers := 2, require_build_validation := true }).2
  let st := (apply_branch_security st "main").2
  let st := (create_work_item st w1 "Implement user authentication"
    WorkItemType.USER_STORY "developer1").2
  let st := (create_work_item st w2 "Create login page"
    WorkItemType.TASK "developer1").2
  let st := (create_work_item st w3 "Fix login bug"
    WorkItemType.BUG "developer2").2
  st

/-- One invocation of a mutating public method of `AzureDevOpsSimulator`,
with the arguments the caller passes (uuid-derived identifiers appear as
arguments). -/
inductive Op where
  | create_user (username email display_name : String) (roles : Finset UserRole)
  | login (username : String)
  | create_group (name description : String)
  | add_user_to_group (username group_name : String)
  | create_branch (name : String) (is_default : Bool)
  | apply_branch_policy (branch_name : String) (policy : BranchPolicy)
  | apply_branch_security (branch_name : String)
  | lock_branch (branch_name reason : String)
  | apply_branch_filters (branch_name : String) (path_filters : List String)
  | create_pull_request (pr_id title source_branch target_branch
      description : String) (work_items : List String)
  | approve_pull_request (pr_id : String)
  | complete_pull_request (pr_id : String)
  | create_work_item (item_id title : String) (item_type : WorkItemType)
      (assigned_to : String)
  | link_work_item_to_pr (work_item_id pr_id : String)
  | create_pipeline (pipeline_id name yaml_content : String)
  | apply_build_triggers (pipeline_id : String) (triggers : BuildTrigger)
  | add_pipeline_gate (pipeline_id : String) (gate : Gate)
  | run_pipeline (pipeline_id : String)

/-- The state after executing one public method call (results discarded). -/
def applyOp (op : Op) (st : SimState) : SimState :=
  match op with
  | .create_user u e d r => (create_user st u e d r).2
  | .login u => (login st u).2
  | .create_group n d => (create_group st n d).2
  | .add_user_to_group u g => (add_user_to_group st u g).2
  | .create_branch n d => (create_branch st n d).2
  | .apply_branch_policy b p => (apply_branch_policy st b p).2
  | .apply_branch_security b => (apply_branch_security st b).2
  | .lock_branch b r => (lock_branch st b r).2
  | .apply_branch_filters b f => (apply_branch_filters st b f).2
  | .create_pull_request i t s tb d w => (create_pull_request st i t s tb d w).2
  | .approve_pull_request i => (approve_pull_request st i).2
  | .complete_pull_request i => (complete_pull_request st i).2
  | .create_work_item i t ty a => (create_work_item st i t ty a).2
  | .link_work_item_to_pr w p => (link_work_item_to_pr st w p).2
  | .create_pipeline i n y => (create_pipeline st i n y).2
  | .apply_build_triggers i t => (apply_build_triggers st i t).2
  | .add_pipeline_gate i g => (add_pipeline_gate st i g).2
  | .run_pipeline i => (run_pipeline st i).2

/-- States reachable through the public API: the constructor-initialized
state (any work-item uuids) followed by any sequence of public method
calls. -/
inductive Reachable : SimState → Prop where
  | init (w1 w2 w3 : String) : Reachable (initState w1 w2 w3)
  | step (op : Op) (st : SimState) : Reachable st → Reachable (applyOp op st)

/-- One stored variable of `PipelineVariableManager` (Assignment8 lines
163-167): the display `value` is masked with `'*'` when secret, the
plaintext is kept in `actual_value`. -/
structure PipelineVariable where
  value : String
  is_secret : Bool
  actual_value : String
deriving DecidableEq

/-- The `variables` dict of `PipelineVariableManager.__init__` (Assignment8
lines 151-156): scope name ↦ (variable name ↦ variable).  The Python field
is named `variables`, a reserved token in Lean 4, hence `vars` here. -/
structure PipelineVariableManager where
  vars : Map (Map PipelineVariable) :=
    [("build", []), ("release", []), ("environment", [])]
deriving DecidableEq

/-- `PipelineVariableManager.add_variable` (Assignment8 lines 158-169):
creates the scope when missing, then stores the variable with the display
value replaced by `len(value)` asterisks when `is_secret`. -/
def add_variable (m : PipelineVariableManager) (scope name value : String)
    (is_secret : Bool) : PipelineVariableManager :=
  let scopes :=
    if mapMem scope m.vars then m.vars
    else mapInsert scope [] m.vars
  let entry : PipelineVariable :=
    { value := if is_secret then String.mk (List.replicate value.length '*')
               else value,
      is_secret := is_secret,
      actual_value := value }
  { m with
    vars := mapModify scope (fun sc => mapInsert name entry sc) scopes }

/-- `PipelineVariableManager.get_variable` (Assignment8 lines 171-175):
returns the stored `actual_value`, never the masked display value. -/
def get_variable (m : PipelineVariableManager) (scope name : String) :
    Option String :=
  match mapLookup scope m.vars with
  | none => none
  | some sc =>
    match mapLookup name sc with
    | none => none
    | some entry => some entry.actual_value

/-- One recorded response of an approver (Assignment8 lines 620-624;
`response_date` omitted). -/
structure ApprovalResponse where
  decision : String
  comment : String
deriving DecidableEq

/-- One approval request dict built by `request_approval` (Assignment8
lines 598-607; `requested_date` omitted).  `approvers` is a Python list and
may contain duplicates; `responses` is a dict keyed by approver. -/
structure ApprovalRequest where
  id : String
  deployment_id : String
  environment : String
  approval_type : String
  approvers : List String
  status : String
  responses : Map ApprovalResponse
deriving DecidableEq

/-- One environment dict of `ReleaseApprovalManager` (Assignment8 lines
570-575; `created_date` omitted). -/
structure Environment where
  description : String
  pre_deployment_approvers : List String := []
  post_deployment_approvers : List String := []
deriving DecidableEq

/-- `ReleaseApprovalManager` state (Assignment8 lines 564-567; the unused
`self.approvals = {}` dict is omitted — no method reads or writes it). -/
structure ReleaseApprovalManager where
  environments : Map Environment := []
  approval_requests : List ApprovalRequest := []
deriving DecidableEq

/-- `create_environment` (Assignment8 lines 569-577). -/
def create_environment (m : ReleaseApprovalManager) (name description : String) :
    ReleaseApprovalManager :=
  { m with
    environments :=
      mapInsert name { description := description } m.environments }

/-- `add_approver` (Assignment8 lines 579-587): appends to the pre- or
post-deployment approver list; silently does nothing for an unknown
environment or any other `approval_type`. -/
def add_approver (m : ReleaseApprovalManager)
    (environment approver_email approval_type : String) :
    ReleaseApprovalManager :=
  if mapMem environment m.environments then
    if approval_type = "pre" then
      { m with
        environments :=
          mapModify environment
            (fun e => { e with
              pre_deployment_approvers :=
                e.pre_deployment_approvers ++ [approver_email] })
            m.environments }
    else if approval_type = "post" then
      { m with
        environments :=
          mapModify environment
            (fun e => { e with
              post_deployment_approvers :=
                e.post_deployment_approvers ++ [approver_email] })
            m.environments }
    else m
  else m

/-- `request_approval` (Assignment8 lines 589-612).  `request_id` stands for
the md5-derived id; `none` models the `KeyError` the Python code raises on
an unknown environment.  A new request starts `"Pending"` with no
responses. -/
def request_approval (m : ReleaseApprovalManager)
    (environment deployment_id approval_type request_id : String) :
    Option ReleaseApprovalManager :=
  match mapLookup environment m.environments with
  | none => none
  | some env =>
    let approvers :=
      if approval_type = "pre" then env.pre_deployment_approvers
      else if approval_type = "post" then env.post_deployment_approvers
      else []
    let request : ApprovalRequest :=
      { id := request_id, deployment_id := deployment_id,
        environment := environment, approval_type := approval_type,
        approvers := approvers, status := "Pending", responses := [] }
    some { m with approval_requests := m.approval_requests ++ [request] }

/-- The in-place update `process_approval` performs on the request it finds
(Assignment8 lines 618-630): record (or overwrite) the approver's response;
when the response count reaches the approver-list length, set the status to
`"Approved"` exactly when every recorded decision is `"Approved"`, else
`"Rejected"`. -/
def respond (req : ApprovalRequest) (approver decision comment : String) :
    ApprovalRequest :=
  let responses :=
    mapInsert approver { decision := decision, comment := comment }
      req.responses
  let status :=
    if responses.length = req.approvers.length then
      if responses.all (fun r => r.2.decision = "Approved") then "Approved"
      else "Rejected"
    else req.status
  { req with responses := responses, status := status }

/-- `process_approval` (Assignment8 lines 614-634): scan the request list
for the first request whose id matches and whose approver list contains the
responder, update it and return `True`; return `False` when no such request
exists (skipping, as the Python loop does, matching-id requests that do not
list the responder). -/
def process_approval (requests : List ApprovalRequest)
    (request_id approver decision comment : String) :
    Bool × List ApprovalRequest :=
  match requests with
  | [] => (false, [])
  | req :: rest =>
    if req.id = request_id && approver ∈ req.approvers then
      (true, respond req approver decision comment :: rest)
    else
      let (r, rest') := process_approval rest request_id approver decision comment
      (r, req :: rest')

/-- A whole sequence of `process_approval` calls, applied in order. -/
def processAll (calls : List (String × String × String × String))
    (requests : List ApprovalRequest) : List ApprovalRequest :=
  match calls with
  | [] => requests
  | (rid, a, d, c) :: rest =>
      processAll rest (process_approval requests rid a d c).2

/-- Invariant of reachable simulator states: every stored pull request's
approval set only contains reviewers (approvals are added exclusively by
`approve_pull_request`, which requires membership in `reviewers`). -/
def PRInv (st : SimState) : Prop :=
  ∀ pid pr, mapLookup pid st.pull_requests = some pr →
    ∀ a ∈ pr.approvals, a ∈ pr.reviewers

/-- `m'` retains every key present in `m`. -/
def keepsKeys {V : Type} (m m' : Map V) : Prop :=
  ∀ k, mapMem k m = true → mapMem k m' = true

/-- Keys of an association list, in order. -/
def mapKeys {V : Type} (m : Map V) : List String :=
  m.map Prod.fst

/-- Invariant maintained by `process_approval` for every stored request:
each recorded response belongs to a listed approver, and no approver has
two response entries.  `request_approval` creates requests with no
responses, so the invariant holds in every reachable manager state. -/
def ReqInv (req : ApprovalRequest) : Prop :=
  mapKeys req.responses ⊆ req.approvers ∧ (mapKeys req.responses).Nodup

/-- Concrete demo run (mirrors `run_complete_demo`): default data with
work-item uuids `"w1" "w2" "w3"`. -/
def demo0 : SimState := initState "w1" "w2" "w3"

/-- `developer1` logs in. -/
def demo1 : SimState := (login demo0 "developer1").2

/-- `developer1` opens pull request `"pr1"` into `develop`. -/
def demo2 : SimState :=
  (create_pull_request demo1 "pr1" "Feature work" "feature/user-auth"
    "develop" "" []).2

/-- `developer1` opens pull request `"pr2"` into `main`. -/
def demo3 : SimState :=
  (create_pull_request demo2 "pr2" "Main work" "develop" "main" "" []).2

/-- `admin` logs in. -/
def demo4 : SimState := (login demo3 "admin").2

/-- `admin` approves `"pr2"`. -/
def demo5 : SimState := (approve_pull_request demo4 "pr2").2

/-- `admin` logs in directly after `"pr1"` was opened (used to complete a
pull request whose author is not among its reviewers). -/
def demoC4 : SimState := (login demo2 "admin").2

/-- The stored pull request `"pr2"` after `admin`'s approval. -/
def demoPR2 : PullRequest :=
  { id := "pr2", title := "Main work", source_branch := "develop",
    target_branch := "main", author := "developer1",
    reviewers := ["admin"], approvals := {"admin"} }

/-- The same pull request after completion. -/
def demoPR2done : PullRequest :=
  { demoPR2 with status := PullRequestStatus.COMPLETED }

/-- Release-approval scenario in which the same approver email is added
twice to the `Production` pre-deployment approver list before a request is
made. -/
def ramDup : ReleaseApprovalManager :=
  let m : ReleaseApprovalManager := {}
  let m := create_environment m "Production" "Production environment"
  let m := add_approver m "Production" "a@co" "pre"
  let m := add_approver m "Production" "a@co" "pre"
  ((request_approval m "Production" "deploy-1" "pre" "req1").getD m)

/-- The duplicate-approver request list after the one listed approver
responds `"Approved"`. -/
def ramDupProcessed : List ApprovalRequest :=
  (process_approval ramDup.approval_requests "req1" "a@co" "Approved" "").2

/-- Release-approval scenario with a single approver for `Staging`. -/
def ramFlip : ReleaseApprovalManager :=
  let m : ReleaseApprovalManager := {}
  let m := create_environment m "Staging" "Staging environment"
  let m := add_approver m "Staging" "b@co" "pre"
  ((request_approval m "Staging" "deploy-2" "pre" "req2").getD m)

/-- The single-approver request list after `b@co` responds `"Approved"`:
the request resolves to `"Approved"`. -/
def ramFlip1 : List ApprovalRequest :=
  (process_approval ramFlip.approval_requests "req2" "b@co" "Approved" "").2

/-- The same list after `b@co` responds again with `"Rejected"`: the
already-resolved request flips to `"Rejected"`. -/
def ramFlip2 : List ApprovalRequest :=
  (process_approval ramFlip1 "req2" "b@co" "Rejected" "").2

/-- A state with every entity collection nonempty: the demo state after
`"pr1"` exists plus one pipeline. -/
def demoFull : SimState := (create_pipeline demo2 "pipe1" "CI Pipeline" "yaml").2

/-- The `BranchSecurity` record `apply_branch_security` builds for
`"main"`. -/
def mainSecurity : BranchSecurity :=
  { branch_name := "main",
    user_permissions :=
      [("admin", adminMainPerms), ("developer1", devMainPerms),
       ("developer2", devMainPerms)],
    group_permissions :=
      [("Admins", adminsGroupPerms), ("Developers", developersGroupPerms "main")] }

/-- The `"main"` branch as it stands in the default data. -/
def mainBranchDemo : Branch :=
  { name := "main", is_default := true,
    policy := some { minimum_reviewers := 2 },
    security := some mainSecurity }

/-- `reader` logs in on the default data. -/
def demoReader : SimState := (login demo0 "reader").2

/-- A state in which a user with the empty username has been created and
logged in: `login` succeeds (the username is a dict key), yet the
`if not self.current_user` truthiness guards treat `""` as falsy. -/
def demoEmptyUser : SimState :=
  (login (create_user demo0 "" "empty@company.com" "Empty Name" ∅).2 "").2

/-- The entry (if any) for user `u` in the `user_permissions` table of the
security applied to the `"main"` branch — the data `_can_create_pr_to_main`
consults. -/
def mainUserEntry (st : SimState) (u : String) : Option (Map BranchPermission) :=
  ((mapLookup "main" st.branches).bind (fun b => b.security)).bind
    (fun sec => mapLookup u sec.user_permissions)

/-- A pending approval request with two distinct listed approvers. -/
def reqAB : ApprovalRequest :=
  { id := "r", deployment_id := "d", environment := "E",
    approval_type := "pre", approvers := ["a", "b"], status := "Pending",
    responses := [] }

/-- A pending approval request with a single listed approver. -/
def reqA : ApprovalRequest :=
  { id := "r", deployment_id := "d", environment := "E",
    approval_type := "pre", approvers := ["a"], status := "Pending",
    responses := [] }

/-- The single request of `ramFlip` after `b@co` approved it. -/
def reqBapproved : ApprovalRequest :=
  { id := "req2", deployment_id := "deploy-2", environment := "Staging",
    approval_type := "pre", approvers := ["b@co"], status := "Approved",
    responses := [("b@co", { decision := "Approved", comment := "" })] }

/-- The same request after `b@co` responded again with `"Rejected"`. -/
def reqBrejected : ApprovalRequest :=
  { id := "req2", deployment_id := "deploy-2", environment := "Staging",
    approval_type := "pre", approvers := ["b@co"], status := "Rejected",
    responses := [("b@co", { decision := "Rejected", comment := "" })] }

theorem mapLookup_insert {V : Type} (k k' : String) (v : V) (m : Map V) :
    mapLookup k (mapInsert k' v m) =
      if k' = k then some v else mapLookup k m := by
  induction m with
  | nil => simp [mapInsert, mapLookup]
  | cons hd tl ih =>
    obtain ⟨k₀, v₀⟩ := hd
    by_cases h₀ : k₀ = k'
    · subst h₀
      by_cases h₁ : k₀ = k <;> simp [mapInsert, mapLookup, h₁]
    · by_cases h₁ : k₀ = k
      · subst h₁
        have : ¬ k' = k₀ := fun h => h₀ h.symm
        simp [mapInsert, mapLookup, h₀, this]
      · simp [mapInsert, mapLookup, h₀, h₁, ih]

theorem mapLookup_modify {V : Type} (k k' : String) (f : V → V) (m : Map V) :
    mapLookup k (mapModify k' f m) =
      if k' = k then Option.map f (mapLookup k m) else mapLookup k m := by
  induction m with
  | nil => simp [mapModify, mapLookup]
  | cons hd tl ih =>
    obtain ⟨k₀, v₀⟩ := hd
    by_cases h₀ : k₀ = k'
    · subst h₀
      by_cases h₁ : k₀ = k <;> simp [mapModify, mapLookup, h₁]
    · by_cases h₁ : k₀ = k
      · subst h₁
        have : ¬ k' = k₀ := fun h => h₀ h.symm
        simp [mapModify, mapLookup, h₀, this]
      · simp [mapModify, mapLookup, h₀, h₁, ih]

theorem mapMem_insert {V : Type} (k k' : String) (v : V) (m : Map V)
    (h : mapMem k m = true) : mapMem k (mapInsert k' v m) = true := by
  simp only [mapMem, mapLookup_insert]
  split <;> simp_all [mapMem]

theorem mapMem_modify {V : Type} (k k' : String) (f : V → V) (m : Map V) :
    mapMem k (mapModify k' f m) = mapMem k m := by
  simp only [mapMem, mapLookup_modify]
  split <;> simp [Option.isSome_map]

theorem keepsKeys_refl {V : Type} (m : Map V) : keepsKeys m m :=
  fun _ h => h

theorem keepsKeys_insert {V : Type} (k : String) (v : V) (m : Map V) :
    keepsKeys m (mapInsert k v m) :=
  fun _ h => mapMem_insert _ _ _ _ h

theorem keepsKeys_modify {V : Type} (k : String) (f : V → V) (m : Map V) :
    keepsKeys m (mapModify k f m) :=
  fun _ h => (mapMem_modify _ _ _ _).trans h

theorem keepsKeys_trans {V : Type} {m₁ m₂ m₃ : Map V}
    (h₁ : keepsKeys m₁ m₂) (h₂ : keepsKeys m₂ m₃) : keepsKeys m₁ m₃ :=
  fun k h => h₂ k (h₁ k h)

theorem prInv_of_pr_eq {st st' : SimState}
    (he : st'.pull_requests = st.pull_requests) (h : PRInv st) : PRInv st' := by
  intro pid pr hl
  exact h pid pr (he ▸ hl)

theorem prInv_insert {st : SimState} (h : PRInv st) (pid : String)
    (pr : PullRequest) (hpr : ∀ a ∈ pr.approvals, a ∈ pr.reviewers) :
    PRInv { st with pull_requests := mapInsert pid pr st.pull_requests } := by
  intro pid' pr' hl
  simp only at hl
  rw [mapLookup_insert] at hl
  by_cases hk : pid = pid'
  · rw [if_pos hk] at hl
    cases hl
    exact hpr
  · rw [if_neg hk] at hl
    exact h pid' pr' hl

theorem prInv_modify_at {st : SimState} (h : PRInv st) (pid : String)
    {pr : PullRequest} (hpr : mapLookup pid st.pull_requests = some pr)
    (f : PullRequest → PullRequest)
    (hf : ∀ a ∈ (f pr).approvals, a ∈ (f pr).reviewers) :
    PRInv { st with pull_requests := mapModify pid f st.pull_requests } := by
  intro pid' pr' hl
  simp only at hl
  rw [mapLookup_modify] at hl
  by_cases hk : pid = pid'
  · rw [if_pos hk] at hl
    rw [← hk, hpr] at hl
    simp only [Option.map_some'] at hl
    cases hl
    exact hf
  · rw [if_neg hk] at hl
    exact h pid' pr' hl

theorem prInv_applyOp (op : Op) (st : SimState) (h : PRInv st) :
    PRInv (applyOp op st) := by
  cases op with
  | create_pull_request pr_id title src tgt desc wi =>
    simp only [applyOp, create_pull_request]
    cases hcu : st.current_user with
    | none => exact h
    | some u =>
      dsimp only
      split
      · exact h
      · split
        · exact h
        · dsimp only
          repeat' split
          all_goals refine prInv_insert h pr_id _ ?_
          all_goals simp
  | approve_pull_request pr_id =>
    simp only [applyOp, approve_pull_request]
    cases hcu : st.current_user with
    | none => exact h
    | some u =>
      dsimp only
      by_cases hu : u = ""
      · rw [if_pos hu]
        exact h
      rw [if_neg hu]
      cases hpr : mapLookup pr_id st.pull_requests with
      | none => exact h
      | some pr =>
        dsimp only
        split
        · rename_i hrev
          refine prInv_modify_at h pr_id hpr _ ?_
          intro a ha
          simp only [Finset.mem_insert] at ha
          rcases ha with rfl | ha
          · exact hrev
          · exact h pr_id pr hpr a ha
        · exact h
  | complete_pull_request pr_id =>
    simp only [applyOp, complete_pull_request]
    cases hcu : st.current_user with
    | none => exact h
    | some u =>
      dsimp only
      by_cases hu : u = ""
      · rw [if_pos hu]
        exact h
      rw [if_neg hu]
      cases hpr : mapLookup pr_id st.pull_requests with
      | none => exact h
      | some pr =>
        dsimp only
        split
        · exact h
        · split
          · exact h
          · have h1 : PRInv { st with
              pull_requests :=
                mapModify pr_id
                  (fun pr => { pr with status := PullRequestStatus.COMPLETED })
                  st.pull_requests } := by
              refine prInv_modify_at h pr_id hpr _ ?_
              exact h pr_id pr hpr
            dsimp only
            split
            · exact prInv_of_pr_eq rfl h1
            · exact h1
  | link_work_item_to_pr wid pid =>
    simp only [applyOp, link_work_item_to_pr]
    split
    · rename_i hc
      simp only [Bool.and_eq_true, mapMem, Option.isSome_iff_exists] at hc
      obtain ⟨⟨w, hw⟩, ⟨pr, hpr⟩⟩ := hc
      refine prInv_modify_at h pid hpr _ ?_
      exact h pid pr hpr
    · exact h
  | create_user u e d r => exact prInv_of_pr_eq rfl h
  | login u =>
    simp only [applyOp, login]
    split <;> exact prInv_of_pr_eq rfl h
  | create_group n d => exact prInv_of_pr_eq rfl h
  | add_user_to_group u g =>
    simp only [applyOp, add_user_to_group]
    split <;> exact prInv_of_pr_eq rfl h
  | create_branch n d => exact prInv_of_pr_eq rfl h
  | apply_branch_policy b p =>
    simp only [applyOp, apply_branch_policy]
    split <;> exact prInv_of_pr_eq rfl h
  | apply_branch_security b =>
    simp only [applyOp, apply_branch_security]
    split <;> exact prInv_of_pr_eq rfl h
  | lock_branch b r =>
    simp only [applyOp, lock_branch]
    repeat' split
    all_goals exact prInv_of_pr_eq rfl h
  | apply_branch_filters b f =>
    simp only [applyOp, apply_branch_filters]
    repeat' split
    all_goals exact prInv_of_pr_eq rfl h
  | create_work_item i t ty a => exact prInv_of_pr_eq rfl h
  | create_pipeline i n y => exact prInv_of_pr_eq rfl h
  | apply_build_triggers i t =>
    simp only [applyOp, apply_build_triggers]
    split <;> exact prInv_of_pr_eq rfl h
  | add_pipeline_gate i g =>
    simp only [applyOp, add_pipeline_gate]
    split <;> exact prInv_of_pr_eq rfl h
  | run_pipeline i =>
    simp only [applyOp, run_pipeline]
    split <;> exact prInv_of_pr_eq rfl h

theorem initState_pull_requests (w1 w2 w3 : String) :
    (initState w1 w2 w3).pull_requests = [] := rfl

theorem reachable_prInv {st : SimState} (h : Reachable st) : PRInv st := by
  induction h with
  | init w1 w2 w3 =>
    intro pid pr hl
    rw [initState_pull_requests] at hl
    simp [mapLookup] at hl
  | step op st _ ih => exact prInv_applyOp op st ih

theorem applyOp_keepsKeys (op : Op) (st : SimState) :
    keepsKeys st.users (applyOp op st).users ∧
    keepsKeys st.groups (applyOp op st).groups ∧
    keepsKeys st.branches (applyOp op st).branches ∧
    keepsKeys st.pull_requests (applyOp op st).pull_requests ∧
    keepsKeys st.work_items (applyOp op st).work_items ∧
    keepsKeys st.pipelines (applyOp op st).pipelines := by
  cases op <;>
    simp only [applyOp, create_user, login, create_group, add_user_to_group,
      create_branch, apply_branch_policy, apply_branch_security, lock_branch,
      apply_branch_filters, create_pull_request, approve_pull_request,
      complete_pull_request, create_work_item, link_work_item_to_pr,
      create_pipeline, apply_build_triggers, add_pipeline_gate, run_pipeline] <;>
    (repeat' split) <;>
    refine ⟨?_, ?_, ?_, ?_, ?_, ?_⟩ <;>
    first
      | exact keepsKeys_refl _
      | exact keepsKeys_insert _ _ _
      | exact keepsKeys_modify _ _ _
      | exact keepsKeys_trans (keepsKeys_modify _ _ _) (keepsKeys_modify _ _ _)

/-- C1: a stored pull request with fewer approvals than reviewers cannot be
completed: whatever user (if any) is logged in, `complete_pull_request`
returns `False` and leaves the whole simulator state — in particular the
pull request's status — unchanged. -/
theorem C1_pending_approvals_block_completion (st : SimState) (pr_id : String)
    (pr : PullRequest) (hpr : mapLookup pr_id st.pull_requests = some pr)
    (hlt : pr.approvals.card < pr.reviewers.length) :
    complete_pull_request st pr_id = (false, st) := by
  unfold complete_pull_request
  cases hcu : st.current_user with
  | none => rfl
  | some u =>
    dsimp only
    rw [hpr]
    dsimp only
    split
    · rfl
    · split <;> rfl

/-- Witness for C1: in the demo state where `"pr2"` (one reviewer, no
approvals yet) exists and `admin` is logged in, completion fails and the
state is unchanged. -/
theorem C1_witness : complete_pull_request demo4 "pr2" = (false, demo4) :=
  C1_pending_approvals_block_completion demo4 "pr2"
    { id := "pr2", title := "Main work", source_branch := "develop",
      target_branch := "main", author := "developer1", reviewers := ["admin"] }
    (by decide) (by decide)

theorem status_clash {pr : PullRequest}
    (h2 : pr.status = PullRequestStatus.ACTIVE)
    (h3 : pr.status = PullRequestStatus.COMPLETED) : False := by
  rw [h2] at h3
  exact absurd h3 (by decide)

/-- C2: in every reachable state, when `complete_pull_request` moves a pull
request from `ACTIVE` to `COMPLETED`, the approval set contains every
reviewer, and when the target branch is `"main"` the logged-in user holds
the `PROJECT_ADMIN` role. -/
theorem C2_completion_needs_reviewers_and_admin (st : SimState)
    (h : Reachable st) (pr_id : String) (pr pr' : PullRequest)
    (hpr : mapLookup pr_id st.pull_requests = some pr)
    (hactive : pr.status = PullRequestStatus.ACTIVE)
    (hpr' : mapLookup pr_id
      (complete_pull_request st pr_id).2.pull_requests = some pr')
    (hcomp : pr'.status = PullRequestStatus.COMPLETED) :
    (∀ r ∈ pr.reviewers, r ∈ pr.approvals) ∧
    (pr.target_branch = "main" →
      ∃ u usr, st.current_user = some u ∧ mapLookup u st.users = some usr ∧
        UserRole.PROJECT_ADMIN ∈ usr.roles) := by
  have hinv : ∀ a ∈ pr.approvals, a ∈ pr.reviewers :=
    reachable_prInv h pr_id pr hpr
  unfold complete_pull_request at hpr'
  cases hcu : st.current_user with
  | none =>
    rw [hcu] at hpr'
    dsimp only at hpr'
    rw [hpr] at hpr'
    injection hpr' with he
    subst he
    exact absurd (status_clash hactive hcomp) not_false
  | some u =>
    rw [hcu] at hpr'
    dsimp only at hpr'
    by_cases hu : u = ""
    · rw [if_pos hu] at hpr'
      dsimp only at hpr'
      rw [hpr] at hpr'
      injection hpr' with he
      subst he
      exact absurd (status_clash hactive hcomp) not_false
    rw [if_neg hu] at hpr'
    rw [hpr] at hpr'
    dsimp only at hpr'
    split at hpr'
    · rw [hpr] at hpr'
      injection hpr' with he
      subst he
      exact absurd (status_clash hactive hcomp) not_false
    · split at hpr'
      · rw [hpr] at hpr'
        injection hpr' with he
        subst he
        exact absurd (status_clash hactive hcomp) not_false
      · rename_i hperm hge
        have hge' : pr.reviewers.length ≤ pr.approvals.card :=
          Nat.le_of_not_lt hge
        have hsubF : pr.approvals ⊆ pr.reviewers.toFinset := by
          intro a ha
          rw [List.mem_toFinset]
          exact hinv a ha
        have hcard : pr.reviewers.toFinset.card ≤ pr.approvals.card :=
          le_trans (List.toFinset_card_le _) hge'
        have heqF : pr.approvals = pr.reviewers.toFinset :=
          Finset.eq_of_subset_of_card_le hsubF hcard
        constructor
        · intro r hr
          rw [heqF, List.mem_toFinset]
          exact hr
        · intro htb
          have hfalse : check_permission st (some u) UserRole.PROJECT_ADMIN
              = true := by
            by_contra hc
            have hf : check_permission st (some u) UserRole.PROJECT_ADMIN
                = false := Bool.eq_false_iff.mpr hc
            exact hperm (by simp [hf, htb])
          unfold check_permission at hfalse
          dsimp only at hfalse
          cases hlu : mapLookup u st.users with
          | none =>
            rw [hlu] at hfalse
            exact absurd hfalse (by simp)
          | some usr =>
            rw [hlu] at hfalse
            exact ⟨u, usr, rfl, hlu, of_decide_eq_true hfalse⟩

theorem reachable_demo5 : Reachable demo5 :=
  Reachable.step (Op.approve_pull_request "pr2") demo4 <|
  Reachable.step (Op.login "admin") demo3 <|
  Reachable.step (Op.create_pull_request "pr2" "Main work" "develop" "main"
    "" []) demo2 <|
  Reachable.step (Op.create_pull_request "pr1" "Feature work"
    "feature/user-auth" "develop" "" []) demo1 <|
  Reachable.step (Op.login "developer1") demo0 <|
  Reachable.init "w1" "w2" "w3"

/-- Witness for C2: in the demo state, `admin` (a project administrator)
completes the fully-approved `"pr2"` into `"main"`; every reviewer is
among the approvals. -/
theorem C2_witness :
    (∀ r ∈ demoPR2.reviewers, r ∈ demoPR2.approvals) ∧
    (demoPR2.target_branch = "main" →
      ∃ u usr, demo5.current_user = some u ∧
        mapLookup u demo5.users = some usr ∧
        UserRole.PROJECT_ADMIN ∈ usr.roles) :=
  C2_completion_needs_reviewers_and_admin demo5 reachable_demo5 "pr2"
    demoPR2 demoPR2done (by decide) (by decide) (by decide) (by decide)

/-- Counterexample to C4 as stated: in the demo state, `admin` completes
pull request `"pr1"` even though its author `"developer1"` is not in its
(empty) reviewer list — `complete_pull_request` never checks the author. -/
theorem C4_counterexample :
    (complete_pull_request demoC4 "pr1").1 = true ∧
    ((mapLookup "pr1"
        (complete_pull_request demoC4 "pr1").2.pull_requests).map
      (fun pr => pr.status)) = some PullRequestStatus.COMPLETED ∧
    ((mapLookup "pr1" demoC4.pull_requests).map
      (fun pr => decide (pr.author ∈ pr.reviewers))) = some false := by
  decide

/-- C4 amended: `complete_pull_request` succeeds exactly when a user with a
truthy (non-empty) username is logged in, that user is a project
administrator or the target branch is not `"main"`, and the approval count
reaches the reviewer count; the author need not appear in the reviewer
list. -/
theorem C4_amended_completion_condition (st : SimState) (pr_id : String)
    (pr : PullRequest) (hpr : mapLookup pr_id st.pull_requests = some pr) :
    (complete_pull_request st pr_id).1 = true ↔
      ((∃ u, st.current_user = some u ∧ u ≠ "") ∧
       (check_permission st st.current_user UserRole.PROJECT_ADMIN = true ∨
         pr.target_branch ≠ "main") ∧
       pr.reviewers.length ≤ pr.approvals.card) := by
  unfold complete_pull_request
  cases hcu : st.current_user with
  | none => simp
  | some u =>
    dsimp only
    rw [hpr]
    dsimp only
    by_cases hu : u = ""
    · rw [if_pos hu]
      constructor
      · intro hfalse
        exact absurd hfalse (by simp)
      · rintro ⟨⟨u', he, hne⟩, -, -⟩
        injection he with he'
        exact absurd hu (he' ▸ hne)
    rw [if_neg hu]
    split
    · rename_i hcond
      simp only [Bool.and_eq_true, Bool.not_eq_true', decide_eq_true_eq]
        at hcond
      obtain ⟨hcf, htb⟩ := hcond
      simp [hcf, htb]
    · split
      · rename_i hlt
        constructor
        · intro hfalse
          exact absurd hfalse (by simp)
        · rintro ⟨-, -, hle⟩
          exact absurd hlt (Nat.not_lt.mpr hle)
      · rename_i hperm hge
        constructor
        · intro _
          refine ⟨⟨u, rfl, hu⟩, ?_, Nat.le_of_not_lt hge⟩
          by_cases hck : check_permission st (some u) UserRole.PROJECT_ADMIN
              = true
          · exact Or.inl hck
          · right
            intro htb
            exact hperm (by simp [Bool.eq_false_iff.mpr hck, htb])
        · intro _
          rfl

/-- Witness for the amended C4: `admin` completing `"pr1"` (target
`develop`, no reviewers, author not a reviewer) satisfies the completion
condition, so the call succeeds. -/
theorem C4_amended_witness :
    (complete_pull_request demoC4 "pr1").1 = true ↔
      ((∃ u, demoC4.current_user = some u ∧ u ≠ "") ∧
       (check_permission demoC4 demoC4.current_user UserRole.PROJECT_ADMIN
          = true ∨
         ({ id := "pr1", title := "Feature work",
            source_branch := "feature/user-auth", target_branch := "develop",
            author := "developer1" } : PullRequest).target_branch ≠ "main") ∧
       ({ id := "pr1", title := "Feature work",
          source_branch := "feature/user-auth", target_branch := "develop",
          author := "developer1" } : PullRequest).reviewers.length ≤
         ({ id := "pr1", title := "Feature work",
            source_branch := "feature/user-auth", target_branch := "develop",
            author := "developer1" } : PullRequest).approvals.card) :=
  C4_amended_completion_condition demoC4 "pr1"
    { id := "pr1", title := "Feature work",
      source_branch := "feature/user-auth", target_branch := "develop",
      author := "developer1" }
    (by decide)

theorem mapModify_modify_self {V : Type} (k : String) (f : V → V) (m : Map V)
    (hf : ∀ v, f (f v) = f v) :
    mapModify k f (mapModify k f m) = mapModify k f m := by
  induction m with
  | nil => rfl
  | cons hd tl ih =>
    obtain ⟨k₀, v₀⟩ := hd
    by_cases h₀ : k₀ = k
    · simp [mapModify, h₀, hf]
    · simp [mapModify, h₀, ih]

/-- C6: `add_user_to_group` is idempotent: a second call with the same
arguments returns the same result and leaves the state produced by the
first call unchanged. -/
theorem C6_add_user_to_group_idempotent (st : SimState)
    (username group_name : String) :
    add_user_to_group (add_user_to_group st username group_name).2
      username group_name = add_user_to_group st username group_name := by
  by_cases hc : (mapMem username st.users && mapMem group_name st.groups)
      = true
  · have h1 : add_user_to_group st username group_name =
      (true, { st with
        groups := mapModify group_name
          (fun g => { g with members := insert username g.members })
          st.groups }) := by
      unfold add_user_to_group
      rw [if_pos hc]
    rw [h1]
    unfold add_user_to_group
    dsimp only
    rw [mapMem_modify, if_pos hc]
    have hm : mapModify group_name
        (fun g => { g with members := insert username g.members })
        (mapModify group_name
          (fun g => { g with members := insert username g.members })
          st.groups) =
        mapModify group_name
          (fun g => { g with members := insert username g.members })
          st.groups :=
      mapModify_modify_self _ _ _ (fun g => by rw [Finset.insert_idem])
    rw [hm]
  · have h1 : add_user_to_group st username group_name = (false, st) := by
      unfold add_user_to_group
      rw [if_neg hc]
    rw [h1]
    exact h1

/-- C7: calls that name an unknown entity (branch, pull request, pipeline,
user or group) return `False` and leave the whole simulator state
unchanged. -/
theorem C7_unknown_entity_noop (st : SimState)
    (branch_name pr_id pipeline_id username group_name : String)
    (policy : BranchPolicy) (triggers : BuildTrigger) :
    (mapLookup branch_name st.branches = none →
      apply_branch_policy st branch_name policy = (false, st)) ∧
    (mapLookup pr_id st.pull_requests = none →
      approve_pull_request st pr_id = (false, st)) ∧
    (mapLookup pr_id st.pull_requests = none →
      complete_pull_request st pr_id = (false, st)) ∧
    (mapLookup pipeline_id st.pipelines = none →
      run_pipeline st pipeline_id = (false, st)) ∧
    (mapLookup pipeline_id st.pipelines = none →
      apply_build_triggers st pipeline_id triggers = (false, st)) ∧
    ((mapLookup username st.users = none ∨
        mapLookup group_name st.groups = none) →
      add_user_to_group st username group_name = (false, st)) := by
  refine ⟨?_, ?_, ?_, ?_, ?_, ?_⟩
  · intro h
    unfold apply_branch_policy
    rw [if_neg (by simp [mapMem, h])]
  · intro h
    unfold approve_pull_request
    cases st.current_user with
    | none => rfl
    | some u =>
      dsimp only
      rw [h]
      split <;> rfl
  · intro h
    unfold complete_pull_request
    cases st.current_user with
    | none => rfl
    | some u =>
      dsimp only
      rw [h]
      split <;> rfl
  · intro h
    unfold run_pipeline
    rw [if_neg (by simp [mapMem, h])]
  · intro h
    unfold apply_build_triggers
    rw [if_neg (by simp [mapMem, h])]
  · intro h
    unfold add_user_to_group
    rcases h with h | h <;> rw [if_neg (by simp [mapMem, h])]

/-- Witness for C7: each kind of call on an identifier absent from the demo
state returns `False` and leaves the state unchanged. -/
theorem C7_witness :
    (apply_branch_policy demo0 "nope" {} = (false, demo0)) ∧
    (approve_pull_request demo0 "nope" = (false, demo0)) ∧
    (complete_pull_request demo0 "nope" = (false, demo0)) ∧
    (run_pipeline demo0 "nope" = (false, demo0)) ∧
    (apply_build_triggers demo0 "nope" {} = (false, demo0)) ∧
    (add_user_to_group demo0 "ghost" "Developers" = (false, demo0)) :=
  let h := C7_unknown_entity_noop demo0 "nope" "nope" "nope" "ghost"
    "Developers" {} {}
  ⟨h.1 (by decide), h.2.1 (by decide), h.2.2.1 (by decide),
   h.2.2.2.1 (by decide), h.2.2.2.2.1 (by decide),
   h.2.2.2.2.2 (Or.inl (by decide))⟩

/-- C8: no public operation removes an entity: every key present in any of
the six entity dictionaries before a call is still present afterwards. -/
theorem C8_entities_never_destroyed (op : Op) (st : SimState) (k : String) :
    (mapMem k st.users = true → mapMem k (applyOp op st).users = true) ∧
    (mapMem k st.groups = true → mapMem k (applyOp op st).groups = true) ∧
    (mapMem k st.branches = true → mapMem k (applyOp op st).branches = true) ∧
    (mapMem k st.pull_requests = true →
      mapMem k (applyOp op st).pull_requests = true) ∧
    (mapMem k st.work_items = true →
      mapMem k (applyOp op st).work_items = true) ∧
    (mapMem k st.pipelines = true →
      mapMem k (applyOp op st).pipelines = true) := by
  obtain ⟨h1, h2, h3, h4, h5, h6⟩ := applyOp_keepsKeys op st
  exact ⟨h1 k, h2 k, h3 k, h4 k, h5 k, h6 k⟩

/-- Witness for C8: running the demo pipeline keeps one concrete key of
each of the six collections alive. -/
theorem C8_witness :
    mapMem "admin" (applyOp (Op.run_pipeline "pipe1") demoFull).users
      = true ∧
    mapMem "Developers" (applyOp (Op.run_pipeline "pipe1") demoFull).groups
      = true ∧
    mapMem "main" (applyOp (Op.run_pipeline "pipe1") demoFull).branches
      = true ∧
    mapMem "pr1"
      (applyOp (Op.run_pipeline "pipe1") demoFull).pull_requests = true ∧
    mapMem "w1" (applyOp (Op.run_pipeline "pipe1") demoFull).work_items
      = true ∧
    mapMem "pipe1" (applyOp (Op.run_pipeline "pipe1") demoFull).pipelines
      = true :=
  ⟨(C8_entities_never_destroyed (Op.run_pipeline "pipe1") demoFull "admin").1
      (by decide),
   (C8_entities_never_destroyed (Op.run_pipeline "pipe1") demoFull
      "Developers").2.1 (by decide),
   (C8_entities_never_destroyed (Op.run_pipeline "pipe1") demoFull
      "main").2.2.1 (by decide),
   (C8_entities_never_destroyed (Op.run_pipeline "pipe1") demoFull
      "pr1").2.2.2.1 (by decide),
   (C8_entities_never_destroyed (Op.run_pipeline "pipe1") demoFull
      "w1").2.2.2.2.1 (by decide),
   (C8_entities_never_destroyed (Op.run_pipeline "pipe1") demoFull
      "pipe1").2.2.2.2.2 (by decide)⟩

/-- C9: `get_variable` after `add_variable` returns the original plaintext
value even for secret variables; the `'*'` mask goes only to the stored
display field. -/
theorem C9_variable_roundtrip (m : PipelineVariableManager)
    (scope name value : String) (is_secret : Bool) :
    get_variable (add_variable m scope name value is_secret) scope name
      = some value ∧
    (mapLookup scope (add_variable m scope name value is_secret).vars).bind
        (mapLookup name) =
      some { value := if is_secret then
               String.mk (List.replicate value.length '*') else value,
             is_secret := is_secret, actual_value := value } := by
  have key : ∃ sc, mapLookup scope
      (add_variable m scope name value is_secret).vars =
      some (mapInsert name
        { value := if is_secret then
            String.mk (List.replicate value.length '*') else value,
          is_secret := is_secret, actual_value := value } sc) := by
    unfold add_variable
    dsimp only
    by_cases hm : mapMem scope m.vars = true
    · rw [if_pos hm]
      obtain ⟨sc, hsc⟩ := Option.isSome_iff_exists.mp hm
      refine ⟨sc, ?_⟩
      rw [mapLookup_modify, if_pos rfl, hsc]
      rfl
    · rw [if_neg hm]
      refine ⟨[], ?_⟩
      rw [mapLookup_modify, if_pos rfl, mapLookup_insert, if_pos rfl]
      rfl
  obtain ⟨sc, hsc⟩ := key
  constructor
  · unfold get_variable
    rw [hsc]
    dsimp only
    rw [mapLookup_insert, if_pos rfl]
  · rw [hsc]
    dsimp only [Option.bind]
    rw [mapLookup_insert, if_pos rfl]

/-- Counterexample to C10 as stated: the empty-username user is logged in
(`login ""` returned `True`) and has no entry in the main branch's
permission table, yet `_can_create_pr_to_main` returns `False` — the
`if not self.current_user` guard is a truthiness test and `""` is falsy —
and `create_pull_request` into `"main"` is refused. -/
theorem C10_counterexample :
    (login (create_user demo0 "" "empty@company.com" "Empty Name" ∅).2
      "").1 = true ∧
    demoEmptyUser.current_user = some "" ∧
    mainUserEntry demoEmptyUser "" = none ∧
    can_create_pr_to_main demoEmptyUser = false ∧
    (create_pull_request demoEmptyUser "prZ" "T" "develop" "main" "" []).1
      = none ∧
    mapLookup "prZ" (create_pull_request demoEmptyUser "prZ" "T" "develop"
      "main" "" []).2.pull_requests = none := by
  decide

/-- C10 amended: with a logged-in user whose username is non-empty (the
`if not self.current_user` truthiness guard refuses the empty username),
`_can_create_pr_to_main` returns `True` whenever the user has no entry in
the main branch's `user_permissions` (including when `"main"` is missing or
has no security); when an entry exists only `GenericRead` (defaulting to
`DENY`) is consulted; and whenever the gate passes, `create_pull_request`
into `"main"` is not refused and stores the new pull request. -/
theorem C10_main_pr_gate (st : SimState) (u : String)
    (pr_id title source_branch description : String)
    (work_items : List String) (sec : BranchSecurity)
    (perms : Map BranchPermission) (hcu : st.current_user = some u)
    (hne : u ≠ "") :
    (mainUserEntry st u = none → can_create_pr_to_main st = true) ∧
    ((mapLookup "main" st.branches).bind (fun b => b.security) = some sec →
      mapLookup u sec.user_permissions = some perms →
      (can_create_pr_to_main st = true ↔
        (mapLookup "GenericRead" perms).getD BranchPermission.DENY
          = BranchPermission.ALLOW)) ∧
    (can_create_pr_to_main st = true →
      ((create_pull_request st pr_id title source_branch "main" description
          work_items).1.isSome = true ∧
       (mapLookup pr_id (create_pull_request st pr_id title source_branch
          "main" description work_items).2.pull_requests).isSome = true)) := by
  refine ⟨?_, ?_, ?_⟩
  · intro h
    unfold mainUserEntry at h
    unfold can_create_pr_to_main
    rw [hcu]
    dsimp only
    rw [if_neg hne]
    cases hb : mapLookup "main" st.branches with
    | none => rfl
    | some b =>
      rw [hb] at h
      dsimp only [Option.bind] at h
      dsimp only
      cases hs : b.security with
      | none => rfl
      | some s =>
        rw [hs] at h
        dsimp only [Option.bind] at h
        dsimp only
        rw [h]
  · intro hsec hp
    unfold can_create_pr_to_main
    rw [hcu]
    dsimp only
    rw [if_neg hne]
    cases hb : mapLookup "main" st.branches with
    | none =>
      rw [hb] at hsec
      exact absurd hsec (by simp [Option.bind])
    | some b =>
      rw [hb] at hsec
      dsimp only [Option.bind] at hsec
      dsimp only
      rw [hsec]
      dsimp only
      rw [hp]
      dsimp only
      exact decide_eq_true_iff
  · intro hcan
    unfold create_pull_request
    rw [hcu]
    dsimp only
    rw [if_neg hne]
    rw [if_neg (by simp [hcan])]
    dsimp only
    constructor
    · rfl
    · rw [mapLookup_insert, if_pos rfl]
      rfl

/-- Witness for C10: `reader` (no entry in main's permission table) passes
the gate; `developer1` (entry with `GenericRead = ALLOW`) passes it and can
open a pull request into `"main"`. -/
theorem C10_witness :
    can_create_pr_to_main demoReader = true ∧
    (can_create_pr_to_main demo1 = true ↔
      (mapLookup "GenericRead" devMainPerms).getD BranchPermission.DENY
        = BranchPermission.ALLOW) ∧
    ((create_pull_request demo1 "prX" "T" "develop" "main" "" []).1.isSome
        = true ∧
     (mapLookup "prX" (create_pull_request demo1 "prX" "T" "develop" "main"
        "" []).2.pull_requests).isSome = true) :=
  ⟨(C10_main_pr_gate demoReader "reader" "prX" "T" "develop" "" []
      mainSecurity devMainPerms (by decide) (by decide)).1 (by decide),
   (C10_main_pr_gate demo1 "developer1" "prX" "T" "develop" "" []
      mainSecurity devMainPerms (by decide) (by decide)).2.1 (by decide)
      (by decide),
   (C10_main_pr_gate demo1 "developer1" "prX" "T" "develop" "" []
      mainSecurity devMainPerms (by decide) (by decide)).2.2 (by decide)⟩

theorem mapKeys_insert {V : Type} (k : String) (v : V) (m : Map V) :
    mapKeys (mapInsert k v m) =
      if k ∈ mapKeys m then mapKeys m else mapKeys m ++ [k] := by
  induction m with
  | nil => simp [mapInsert, mapKeys]
  | cons hd tl ih =>
    obtain ⟨k₀, v₀⟩ := hd
    by_cases h₀ : k₀ = k
    · subst h₀
      simp [mapInsert, mapKeys]
    · have hne : ¬ k = k₀ := fun h => h₀ h.symm
      simp only [mapKeys, List.map_cons] at ih ⊢
      rw [show mapInsert k v ((k₀, v₀) :: tl) = (k₀, v₀) :: mapInsert k v tl
        from by simp [mapInsert, h₀]]
      simp only [List.map_cons]
      rw [ih]
      by_cases hk : k ∈ List.map Prod.fst tl
      · rw [if_pos hk, if_pos (by simp [hk])]
      · rw [if_neg hk, if_neg (by simp [hk, hne]), List.cons_append]

theorem mapLookup_eq_none_iff {V : Type} (k : String) (m : Map V) :
    mapLookup k m = none ↔ k ∉ mapKeys m := by
  induction m with
  | nil => simp [mapLookup, mapKeys]
  | cons hd tl ih =>
    obtain ⟨k₀, v₀⟩ := hd
    by_cases h₀ : k₀ = k
    · subst h₀
      simp [mapLookup, mapKeys]
    · have hne : ¬ k = k₀ := fun h => h₀ h.symm
      simp [mapLookup, mapKeys, h₀, hne, ih]

theorem mem_mapKeys_of_isSome {V : Type} {k : String} {m : Map V}
    (h : (mapLookup k m).isSome = true) : k ∈ mapKeys m := by
  by_contra hc
  rw [← mapLookup_eq_none_iff] at hc
  rw [hc] at h
  exact absurd h (by simp)

theorem mapKeys_insert_subset {V : Type} (k : String) (v : V) (m : Map V)
    {l : List String} (hsub : mapKeys m ⊆ l) (hk : k ∈ l) :
    mapKeys (mapInsert k v m) ⊆ l := by
  rw [mapKeys_insert]
  split
  · exact hsub
  · intro a ha
    rcases List.mem_append.mp ha with h | h
    · exact hsub h
    · rw [List.mem_singleton] at h
      subst h
      exact hk

theorem mapKeys_insert_nodup {V : Type} (k : String) (v : V) (m : Map V)
    (hnd : (mapKeys m).Nodup) : (mapKeys (mapInsert k v m)).Nodup := by
  rw [mapKeys_insert]
  split
  · exact hnd
  · rename_i hk
    refine List.Nodup.append hnd (List.nodup_singleton k) ?_
    intro a ha hb
    rw [List.mem_singleton] at hb
    subst hb
    exact hk ha

theorem keys_length_lt_of_missing {keys approvers : List String} (x : String)
    (hsub : keys ⊆ approvers) (hnd : keys.Nodup) (hx : x ∈ approvers)
    (hxk : x ∉ keys) : keys.length < approvers.length := by
  have h1 : keys.toFinset ⊆ approvers.toFinset.erase x := by
    intro a ha
    rw [List.mem_toFinset] at ha
    rw [Finset.mem_erase]
    exact ⟨fun he => hxk (he ▸ ha), List.mem_toFinset.mpr (hsub ha)⟩
  have h2 : keys.toFinset.card ≤ (approvers.toFinset.erase x).card :=
    Finset.card_le_card h1
  have h3 : (approvers.toFinset.erase x).card < approvers.toFinset.card :=
    Finset.card_erase_lt_of_mem (List.mem_toFinset.mpr hx)
  have h4 : keys.toFinset.card = keys.length :=
    List.toFinset_card_of_nodup hnd
  calc keys.length = keys.toFinset.card := h4.symm
    _ < approvers.toFinset.card := lt_of_le_of_lt h2 h3
    _ ≤ approvers.length := List.toFinset_card_le _

theorem keys_length_eq_of_all_mem {keys approvers : List String}
    (hsub : keys ⊆ approvers) (hnd : keys.Nodup) (hnd' : approvers.Nodup)
    (hall : ∀ x ∈ approvers, x ∈ keys) : keys.length = approvers.length := by
  have he : keys.toFinset = approvers.toFinset := by
    apply Finset.Subset.antisymm
    · intro a ha
      rw [List.mem_toFinset] at ha ⊢
      exact hsub ha
    · intro a ha
      rw [List.mem_toFinset] at ha ⊢
      exact hall a ha
  rw [← List.toFinset_card_of_nodup hnd, ← List.toFinset_card_of_nodup hnd',
    he]

theorem process_approval_first_match (l₁ l₂ : List ApprovalRequest)
    (req : ApprovalRequest) (rid a d c : String)
    (hskip : ∀ r ∈ l₁, ¬(r.id = rid ∧ a ∈ r.approvers))
    (hid : req.id = rid) (ha : a ∈ req.approvers) :
    process_approval (l₁ ++ req :: l₂) rid a d c
      = (true, l₁ ++ respond req a d c :: l₂) := by
  induction l₁ with
  | nil =>
    simp only [List.nil_append, process_approval]
    rw [if_pos (by simp [hid, ha])]
  | cons hd tl ih =>
    simp only [List.cons_append, process_approval, List.append_eq]
    rw [if_neg (by
      simp only [Bool.and_eq_true, decide_eq_true_eq]
      exact hskip hd (List.mem_cons_self hd tl))]
    rw [ih (fun r hr => hskip r (List.mem_cons_of_mem hd hr))]

/-- C3 amended: `process_approval` updates the first request matching the
id whose approver list contains the responder; afterwards the status is
still `"Pending"` whenever some listed approver has no recorded response,
and — provided the approver list has no duplicate entries — once every
listed approver has a recorded response the status becomes `"Approved"`
exactly when every recorded decision is `"Approved"` and `"Rejected"`
otherwise (no partial or majority logic). -/
theorem C3_amended_unanimous_resolution (l₁ l₂ : List ApprovalRequest)
    (req : ApprovalRequest) (approver decision comment : String)
    (hskip : ∀ r ∈ l₁, ¬(r.id = req.id ∧ approver ∈ r.approvers))
    (happ : approver ∈ req.approvers)
    (hpending : req.status = "Pending")
    (hkeys : mapKeys req.responses ⊆ req.approvers)
    (hnodup : (mapKeys req.responses).Nodup) :
    process_approval (l₁ ++ req :: l₂) req.id approver decision comment
      = (true, l₁ ++ respond req approver decision comment :: l₂) ∧
    ((∃ x ∈ req.approvers,
        mapLookup x (respond req approver decision comment).responses
          = none) →
      (respond req approver decision comment).status = "Pending") ∧
    (req.approvers.Nodup →
      (∀ x ∈ req.approvers, (mapLookup x
          (respond req approver decision comment).responses).isSome = true) →
      (respond req approver decision comment).status =
        (if (respond req approver decision comment).responses.all
            (fun r => r.2.decision = "Approved")
         then "Approved" else "Rejected")) := by
  have hsub' : mapKeys (mapInsert approver
      { decision := decision, comment := comment } req.responses)
      ⊆ req.approvers :=
    mapKeys_insert_subset _ _ _ hkeys happ
  have hnd' : (mapKeys (mapInsert approver
      { decision := decision, comment := comment } req.responses)).Nodup :=
    mapKeys_insert_nodup _ _ _ hnodup
  refine ⟨process_approval_first_match l₁ l₂ req req.id approver decision
    comment hskip rfl happ, ?_, ?_⟩
  · rintro ⟨x, hx, hnone⟩
    unfold respond at hnone ⊢
    dsimp only at hnone ⊢
    rw [if_neg]
    · exact hpending
    · intro hlen
      have hxk : x ∉ mapKeys (mapInsert approver
          { decision := decision, comment := comment } req.responses) :=
        (mapLookup_eq_none_iff _ _).mp hnone
      have hlt := keys_length_lt_of_missing x hsub' hnd' hx hxk
      have hklen : (mapKeys (mapInsert approver
          { decision := decision, comment := comment }
          req.responses)).length =
          (mapInsert approver { decision := decision, comment := comment }
            req.responses).length := List.length_map _ _
      rw [hklen, hlen] at hlt
      exact absurd hlt (lt_irrefl _)
  · intro hnda hall
    unfold respond at hall ⊢
    dsimp only at hall ⊢
    rw [if_pos]
    have heq := keys_length_eq_of_all_mem hsub' hnd' hnda
      (fun x hx => mem_mapKeys_of_isSome (hall x hx))
    exact (List.length_map _ _).symm.trans heq

theorem process_approval_length (requests : List ApprovalRequest)
    (rid a d c : String) :
    (process_approval requests rid a d c).2.length = requests.length := by
  induction requests with
  | nil => rfl
  | cons hd tl ih =>
    simp only [process_approval]
    split
    · simp
    · simp [ih]

theorem process_approval_get (requests : List ApprovalRequest)
    (rid a d c : String) (i : Nat) :
    (process_approval requests rid a d c).2.get? i = requests.get? i ∨
    (∃ req, requests.get? i = some req ∧
      (process_approval requests rid a d c).2.get? i
        = some (respond req a d c)) := by
  induction requests generalizing i with
  | nil => left; rfl
  | cons hd tl ih =>
    simp only [process_approval]
    split
    · cases i with
      | zero => right; exact ⟨hd, rfl, rfl⟩
      | succ n => left; rfl
    · cases i with
      | zero => left; rfl
      | succ n =>
        rcases ih n with h | ⟨req, hq, hr⟩
        · left
          simpa using h
        · right
          exact ⟨req, hq, by simpa using hr⟩

theorem process_status_step (requests : List ApprovalRequest)
    (rid a d c : String) (i : Nat) (req req' : ApprovalRequest)
    (h1 : requests.get? i = some req)
    (h2 : (process_approval requests rid a d c).2.get? i = some req') :
    (req'.status = req.status ∨ req'.status = "Approved" ∨
      req'.status = "Rejected") ∧
    (req.status ≠ "Pending" → req'.status ≠ "Pending") := by
  rcases process_approval_get requests rid a d c i with h | ⟨req₀, hq, hr⟩
  · rw [h, h1] at h2
    injection h2 with he
    subst he
    exact ⟨Or.inl rfl, fun hp => hp⟩
  · rw [hq] at h1
    injection h1 with he
    subst he
    rw [hr] at h2
    injection h2 with he2
    rw [← he2]
    unfold respond
    dsimp only
    constructor
    · split
      · split
        · right; left; rfl
        · right; right; rfl
      · left; rfl
    · intro hp
      split
      · split
        · intro hc
          exact absurd hc (by decide)
        · intro hc
          exact absurd hc (by decide)
      · exact hp

/-- C5 amended: over any sequence of `process_approval` calls, a stored
request's status is always its original status, `"Approved"`, or
`"Rejected"`; a request that has left `"Pending"` never returns to it; and
a resolved request stays within `{"Approved", "Rejected"}` — it can,
however, flip between the two when a listed approver responds again with a
different decision. -/
theorem C5_amended_no_return_to_pending
    (calls : List (String × String × String × String))
    (requests : List ApprovalRequest) (i : Nat) (req req' : ApprovalRequest)
    (h1 : requests.get? i = some req)
    (h2 : (processAll calls requests).get? i = some req') :
    (req'.status = req.status ∨ req'.status = "Approved" ∨
      req'.status = "Rejected") ∧
    (req.status ≠ "Pending" → req'.status ≠ "Pending") ∧
    ((req.status = "Approved" ∨ req.status = "Rejected") →
      (req'.status = "Approved" ∨ req'.status = "Rejected")) := by
  have main : (req'.status = req.status ∨ req'.status = "Approved" ∨
      req'.status = "Rejected") ∧
      (req.status ≠ "Pending" → req'.status ≠ "Pending") := by
    induction calls generalizing requests req with
    | nil =>
      rw [processAll] at h2
      rw [h1] at h2
      injection h2 with he
      subst he
      exact ⟨Or.inl rfl, fun hp => hp⟩
    | cons call rest ih =>
      obtain ⟨rid, a, d, c⟩ := call
      rw [processAll] at h2
      have hlt : i < requests.length := by
        by_contra hc
        rw [List.get?_eq_none.mpr (Nat.le_of_not_lt hc)] at h1
        exact absurd h1 (by simp)
      obtain ⟨reqm, hm⟩ : ∃ reqm,
          (process_approval requests rid a d c).2.get? i = some reqm := by
        cases hm : (process_approval requests rid a d c).2.get? i with
        | none =>
          have := List.get?_eq_none.mp hm
          rw [process_approval_length] at this
          exact absurd hlt (Nat.not_lt.mpr this)
        | some reqm => exact ⟨reqm, rfl⟩
      have hstep := process_status_step requests rid a d c i req reqm h1 hm
      have hih := ih (process_approval requests rid a d c).2 reqm hm h2
      constructor
      · rcases hih.1 with he | he | he
        · rw [he]
          exact hstep.1
        · right; left; exact he
        · right; right; exact he
      · intro hnp
        exact hih.2 (hstep.2 hnp)
  refine ⟨main.1, main.2, ?_⟩
  intro hres
  rcases main.1 with he | he | he
  · rw [he]
    exact hres
  · exact Or.inl he
  · exact Or.inr he

/-- Counterexample to C3 as stated: `"a@co"` is listed twice as a
`Production` pre-deployment approver; after the one listed approver has
responded `"Approved"` (so every listed approver has responded, every
recorded decision is `"Approved"`), the request's status is still
`"Pending"` — `process_approval` compares the response count against the
approver-list length, which duplicates inflate. -/
theorem C3_counterexample :
    ramDupProcessed.map (fun r => r.status) = ["Pending"] ∧
    ramDupProcessed.map (fun r => r.approvers) = [["a@co", "a@co"]] ∧
    (ramDupProcessed.all (fun r => r.approvers.all
      (fun x => (mapLookup x r.responses).isSome))) = true ∧
    (ramDupProcessed.all (fun r => r.responses.all
      (fun p => p.2.decision = "Approved"))) = true := by
  decide

/-- Witness for the amended C3: with approvers `["a", "b"]`, after `"a"`
approves the status stays `"Pending"` (`"b"` has not responded); with the
single approver `["a"]`, after `"a"` responds the status resolves by the
unanimity rule. -/
theorem C3_witness :
    process_approval [reqAB] "r" "a" "Approved" ""
      = (true, [respond reqAB "a" "Approved" ""]) ∧
    (respond reqAB "a" "Approved" "").status = "Pending" ∧
    (respond reqA "a" "Approved" "").status =
      (if (respond reqA "a" "Approved" "").responses.all
          (fun r => r.2.decision = "Approved")
       then "Approved" else "Rejected") :=
  ⟨(C3_amended_unanimous_resolution [] [] reqAB "a" "Approved" ""
      (by decide) (by decide) rfl (by decide) (by decide)).1,
   (C3_amended_unanimous_resolution [] [] reqAB "a" "Approved" ""
      (by decide) (by decide) rfl (by decide) (by decide)).2.1
      ⟨"b", by decide, by decide⟩,
   (C3_amended_unanimous_resolution [] [] reqA "a" "Approved" ""
      (by decide) (by decide) rfl (by decide) (by decide)).2.2
      (by decide) (by decide)⟩

/-- Counterexample to C5 as stated: the `Staging` request resolves to
`"Approved"` after its single approver approves, and a further
`process_approval` call in which the same approver responds `"Rejected"`
flips the already-resolved status to `"Rejected"`. -/
theorem C5_counterexample :
    ramFlip1.map (fun r => r.status) = ["Approved"] ∧
    ramFlip2.map (fun r => r.status) = ["Rejected"] := by
  decide

/-- Witness for the amended C5: the flip scenario satisfies the amended
statement — the final status is `"Rejected"` (one of the allowed values),
the request does not return to `"Pending"`, and the resolved request stays
within the resolved statuses. -/
theorem C5_witness :
    (reqBrejected.status = reqBapproved.status ∨
      reqBrejected.status = "Approved" ∨
      reqBrejected.status = "Rejected") ∧
    (reqBapproved.status ≠ "Pending" → reqBrejected.status ≠ "Pending") ∧
    ((reqBapproved.status = "Approved" ∨ reqBapproved.status = "Rejected") →
      (reqBrejected.status = "Approved" ∨
        reqBrejected.status = "Rejected")) :=
  C5_amended_no_return_to_pending [("req2", "b@co", "Rejected", "")]
    [reqBapproved] 0 reqBapproved reqBrejected (by decide) (by decide)

end CSI
